import Mathlib

/-!
Verification of the redis output pipeline of libbeat (`common/bytes.go`,
package `redis`): configuration initialization (`Init`), the connection
handshake (`RedisConnect`), the reconnect loop (`Reconnect`), the delivery
worker (`SendMessagesGoroutine`), and the topology registry
(`PublishIPs`, `UpdateLocalTopologyMap`, `GetNameByIP`).

The Go code is shallowly embedded: network and store effects are driven by
explicit outcome oracles, goroutine loops become step functions folded over
event lists, and Go maps become association lists where a later assignment
shadows an earlier binding (insertion prepends, lookup takes the first hit).
-/

namespace Redis

/-- `outputs.Config`, restricted to the fields the redis output reads.
`FlushInterval` is `*int` in Go, hence `Option Int` here. -/
structure Config where
  Host : String
  Port : Int
  Password : String
  Index : String
  Db : Int
  DbTopology : Int
  Timeout : Int
  ReconnectInterval : Int
  DataType : String
  FlushInterval : Option Int
deriving Repr, DecidableEq

/-- `RedisDataType` from the source: list vs channel. -/
inductive RedisDataType where
  | RedisListType
  | RedisChannelType
deriving Repr, DecidableEq

/-- The configuration fields of the `RedisOutput` struct as set by `Init`.
Durations are kept in the unit the source uses when producing them:
`TopologyExpire`, `ReconnectInterval` and `Timeout` in seconds,
`FlushInterval` in milliseconds. -/
structure RedisOutput where
  Index : String
  TopologyExpire : Int
  ReconnectInterval : Int
  Hostname : String
  Password : String
  Db : Int
  DbTopology : Int
  Timeout : Int
  DataType : RedisDataType
  FlushInterval : Int
  flush_immediatelly : Bool
deriving Repr, DecidableEq

/-- `RedisOutput.Init`: fills in defaults field by field exactly as the Go
code does (zero value kept unless the config overrides it), then validates
`DataType`; the only error return is `"Bad Redis data type"`. -/
def Init (config : Config) (topology_expire : Int) : Except String RedisOutput :=
  let out : RedisOutput := {
    Hostname := config.Host ++ ":" ++ toString config.Port
    Password := config.Password
    Db := config.Db
    DbTopology := if config.DbTopology ≠ 0 then config.DbTopology else 1
    Timeout := if config.Timeout ≠ 0 then config.Timeout else 5
    Index := if config.Index ≠ "" then config.Index else "packetbeat"
    FlushInterval := match config.FlushInterval with
      | some fi => if fi < 0 then 1000 else fi
      | none => 1000
    flush_immediatelly := match config.FlushInterval with
      | some fi => decide (fi < 0)
      | none => false
    ReconnectInterval := if config.ReconnectInterval ≠ 0 then config.ReconnectInterval else 1
    TopologyExpire := if topology_expire ≠ 0 then topology_expire else 15
    DataType := RedisDataType.RedisListType }
  if config.DataType = "" ∨ config.DataType = "list" then
    Except.ok out
  else if config.DataType = "channel" then
    Except.ok { out with DataType := RedisDataType.RedisChannelType }
  else
    Except.error "Bad Redis data type"

/-- One step of the `RedisConnect` handshake, recorded in order. -/
inductive ConnStep where
  | dial
  | auth
  | ping
  | selectDb (db : Int)
deriving Repr, DecidableEq

/-- Outcomes of the four network interactions `RedisConnect` may perform. -/
structure ConnOracle where
  dialOk : Bool
  authOk : Bool
  pingOk : Bool
  selectOk : Bool
deriving Repr, DecidableEq

/-- `RedisOutput.RedisConnect`: dial with timeout, then `AUTH` only when a
password is configured (`len(out.Password) > 0`), then `PING`, then
`SELECT db`; each failing step returns its error at once.  The result pairs
the trace of steps actually issued with success or the failing step's
error. -/
def RedisConnect (password : String) (db : Int) (o : ConnOracle) :
    List ConnStep × Except String Unit :=
  if o.dialOk = false then ([ConnStep.dial], Except.error "dial")
  else if 0 < password.length then
    if o.authOk = false then
      ([ConnStep.dial, ConnStep.auth], Except.error "auth")
    else if o.pingOk = false then
      ([ConnStep.dial, ConnStep.auth, ConnStep.ping], Except.error "ping")
    else if o.selectOk = false then
      ([ConnStep.dial, ConnStep.auth, ConnStep.ping, ConnStep.selectDb db],
       Except.error "select")
    else
      ([ConnStep.dial, ConnStep.auth, ConnStep.ping, ConnStep.selectDb db],
       Except.ok ())
  else
    if o.pingOk = false then
      ([ConnStep.dial, ConnStep.ping], Except.error "ping")
    else if o.selectOk = false then
      ([ConnStep.dial, ConnStep.ping, ConnStep.selectDb db], Except.error "select")
    else
      ([ConnStep.dial, ConnStep.ping, ConnStep.selectDb db], Except.ok ())

/-- `RedisOutput.Reconnect` run against a finite list of `Connect` attempt
outcomes (`true` = success).  The loop consumes outcomes until the first
success; it returns `none` when the list is exhausted without success (the
real loop would still be retrying), and otherwise the number of attempts,
the list of sleeps performed (one fixed `interval` after each failure), and
the `connected` flag that `Connect` published on success. -/
def Reconnect (interval : Int) : List Bool → Option (Nat × List Int × Bool)
  | [] => none
  | ok :: rest =>
    if ok then some (1, [], true)
    else (Reconnect interval rest).map (fun r => (r.1 + 1, interval :: r.2.1, r.2.2))

/-- `RedisQueueMsg` from the source. -/
structure RedisQueueMsg where
  index : String
  msg : String
deriving Repr, DecidableEq

/-- An event the `SendMessagesGoroutine` select loop reacts to: a message
arriving on the sending queue (with the outcome of the `Send`/`Do` the
worker would issue for it), or a flush-timer tick (with the outcome of the
`Receive` following the flush). -/
inductive WorkerEvent where
  | msg (m : RedisQueueMsg) (sendOk : Bool)
  | tick (receiveOk : Bool)
deriving Repr, DecidableEq

/-- Observable actions of the worker: a synchronous `Do` (command written
and its reply awaited), a pipelined `Send` (no reply awaited), a
`Flush`+`Receive` covering `count` pending commands, or a dropped message. -/
inductive WorkerAction where
  | doCmd (command : String) (index : String) (msg : String)
  | sendCmd (command : String) (index : String) (msg : String)
  | flushRecv (count : Nat)
  | drop (m : RedisQueueMsg)
deriving Repr, DecidableEq

/-- Worker-visible state: the `connected` flag, the `pending` counter, and
the number of `go out.Reconnect()` spawned so far. -/
structure WorkerState where
  connected : Bool
  pending : Nat
  reconnectsSpawned : Nat
deriving Repr, DecidableEq

/-- The command chosen per data type: `PUBLISH` for channels, else `RPUSH`. -/
def commandFor (dt : RedisDataType) : String :=
  if dt = RedisDataType.RedisChannelType then "PUBLISH" else "RPUSH"

/-- One iteration of the `SendMessagesGoroutine` select loop.  On a queue
message: if not connected the message is dropped; otherwise in batched mode
(`flushImm = false`) the command is pipelined with `Send` and `pending` is
incremented (also when `Send` errs), while in immediate mode the command
goes through a synchronous `Do`; an error marks the connection unhealthy
and spawns a reconnect.  On a tick: only when `pending > 0` the worker
flushes and does one `Receive`; an error marks unhealthy and spawns a
reconnect; `pending` is set to `0` on this path whether or not `Receive`
succeeded, exactly as in the source. -/
def workerStep (flushImm : Bool) (dt : RedisDataType) (st : WorkerState) :
    WorkerEvent → WorkerState × List WorkerAction
  | WorkerEvent.msg m sendOk =>
    if st.connected = false then (st, [WorkerAction.drop m])
    else
      let command := commandFor dt
      if flushImm = false then
        let st1 := { st with pending := st.pending + 1 }
        if sendOk then (st1, [WorkerAction.sendCmd command m.index m.msg])
        else ({ st1 with connected := false,
                         reconnectsSpawned := st1.reconnectsSpawned + 1 },
              [WorkerAction.sendCmd command m.index m.msg])
      else
        if sendOk then (st, [WorkerAction.doCmd command m.index m.msg])
        else ({ st with connected := false,
                        reconnectsSpawned := st.reconnectsSpawned + 1 },
              [WorkerAction.doCmd command m.index m.msg])
  | WorkerEvent.tick receiveOk =>
    if 0 < st.pending then
      if receiveOk then
        ({ st with pending := 0 }, [WorkerAction.flushRecv st.pending])
      else
        ({ st with connected := false,
                   reconnectsSpawned := st.reconnectsSpawned + 1,
                   pending := 0 },
         [WorkerAction.flushRecv st.pending])
    else (st, [])

/-- The worker loop folded over a finite event list, collecting actions. -/
def workerRun (flushImm : Bool) (dt : RedisDataType) (st : WorkerState) :
    List WorkerEvent → WorkerState × List WorkerAction
  | [] => (st, [])
  | e :: es =>
    let r1 := workerStep flushImm dt st e
    let r2 := workerRun flushImm dt r1.1 es
    (r2.1, r1.2 ++ r2.2)

/-- The event list for a batch of messages all of whose sends succeed. -/
def okMsgEvents (msgs : List RedisQueueMsg) : List WorkerEvent :=
  msgs.map (fun m => WorkerEvent.msg m true)

/-- Go-map assignment `m[k] = v` on an association list: the new binding
shadows any earlier one because lookup takes the first hit. -/
def mapAssign (m : List (String × String)) (k v : String) : List (String × String) :=
  (k, v) :: m

/-- Go-map lookup `v, exists := m[k]`. -/
def mapLookup (m : List (String × String)) (k : String) : Option String :=
  (m.find? (fun p => p.1 = k)).map Prod.snd

/-- `RedisOutput.GetNameByIP`: look the IP up in the local topology map and
return the empty string when it is absent. -/
def GetNameByIP (topologyMap : List (String × String)) (ip : String) : String :=
  match mapLookup topologyMap ip with
  | some name => name
  | none => ""

/-- `strings.Split s ","` over the characters of `s`
(`Split("", ",") = [""]`, separators at the ends give empty fields). -/
def splitCommaChars : List Char → List (List Char)
  | [] => [[]]
  | c :: cs =>
    if c = ',' then [] :: splitCommaChars cs
    else match splitCommaChars cs with
      | [] => [[c]]
      | g :: gs => (c :: g) :: gs

/-- `strings.Split s ","`. -/
def splitComma (s : String) : List String :=
  (splitCommaChars s.toList).map (fun cs => String.mk cs)

/-- `strings.Join addrs ","`. -/
def joinComma : List String → String
  | [] => ""
  | [a] => a
  | a :: rest => a ++ "," ++ joinComma rest

/-- The inner loop body of `UpdateLocalTopologyMap` for one hostname whose
`HGET` returned `res`: every address in the comma-split of `res` is
assigned to that hostname in the map being built. -/
def addHost (m : List (String × String)) (hostname res : String) :
    List (String × String) :=
  (splitComma res).foldl (fun acc addr => mapAssign acc addr hostname) m

/-- The `for hostname := range hostnames` loop of `UpdateLocalTopologyMap`:
`entries` is the registry database (`HGET hostname "ipaddrs"` is a lookup in
it), `hgetFail` the hostnames whose `HGET` errs (those are logged and
skipped). -/
def buildFromKeys (entries : List (String × String)) (hgetFail : List String) :
    List String → List (String × String) → List (String × String)
  | [], m => m
  | hostname :: ks, m =>
    buildFromKeys entries hgetFail ks
      (if hostname ∈ hgetFail then m
       else match mapLookup entries hostname with
         | some res => addHost m hostname res
         | none => m)

/-- Proof helper: the hostname loop of `UpdateLocalTopologyMap` driven
directly by the entry list instead of by keys looked up in it; equal to
`buildFromKeys` when the keys are distinct. -/
def foldEntries (hf : List String) :
    List (String × String) → List (String × String) → List (String × String)
  | [], m => m
  | p :: rest, m =>
    foldEntries hf rest (if p.1 ∈ hf then m else addHost m p.1 p.2)

/-- `RedisOutput.UpdateLocalTopologyMap`: when `KEYS *` fails the function
returns at once and the current map `cur` stays in place; otherwise a fresh
map is built from all hostnames and replaces the old one wholesale. -/
def UpdateLocalTopologyMap (entries : List (String × String)) (keysOk : Bool)
    (hgetFail : List String) (cur : List (String × String)) :
    List (String × String) :=
  if keysOk = false then cur
  else buildFromKeys entries hgetFail (entries.map Prod.fst) []

/-- The topology database: the `"ipaddrs"` hash field per identity, and the
expiration per identity as set by `EXPIRE`. -/
structure TopoStore where
  entries : List (String × String)
  expires : List (String × Int)
deriving Repr, DecidableEq

/-- `EXPIRE` assignment on the store. -/
def expAssign (m : List (String × Int)) (k : String) (v : Int) : List (String × Int) :=
  (k, v) :: m

/-- Lookup of the current expiration of a key. -/
def expLookup (m : List (String × Int)) (k : String) : Option Int :=
  (m.find? (fun p => p.1 = k)).map Prod.snd

/-- Outcomes of the store interactions a `PublishIPs` call performs. -/
structure PublishOracle where
  connectOk : Bool
  hsetOk : Bool
  expireOk : Bool
  keysOk : Bool
  hgetFail : List String
deriving Repr, DecidableEq

/-- What a `PublishIPs` call did: its return value, the store afterwards,
the local topology map afterwards, and whether the short-lived connection
was opened and closed again (`defer conn.Close()`). -/
structure PublishOutcome where
  result : Except String Unit
  store : TopoStore
  topologyMap : List (String × String)
  connOpened : Bool
  connClosed : Bool
deriving Repr

/-- `RedisOutput.PublishIPs`: connect to the topology db (error out if that
fails), `HSET name "ipaddrs" strings.Join(localAddrs, ",")`, `EXPIRE name
TopologyExpire`, each error returned at once (the deferred close still
runs), then refresh the local topology map over the same connection and
return nil. -/
def PublishIPs (topologyExpire : Int) (name : String) (localAddrs : List String)
    (o : PublishOracle) (store : TopoStore) (cur : List (String × String)) :
    PublishOutcome :=
  if o.connectOk = false then
    ⟨Except.error "connect", store, cur, false, false⟩
  else if o.hsetOk = false then
    ⟨Except.error "hset", store, cur, true, true⟩
  else
    let store1 : TopoStore :=
      { store with entries := mapAssign store.entries name (joinComma localAddrs) }
    if o.expireOk = false then
      ⟨Except.error "expire", store1, cur, true, true⟩
    else
      let store2 : TopoStore :=
        { store1 with expires := expAssign store1.expires name topologyExpire }
      ⟨Except.ok (), store2,
       UpdateLocalTopologyMap store2.entries o.keysOk o.hgetFail cur, true, true⟩

/-- The shared connection cell: the `connected` flag and the identity of the
reconnect invocation whose handle is currently installed (0 = none). -/
structure ConnState where
  connected : Bool
  handle : Nat
deriving Repr, DecidableEq

/-- State of an interleaved run of several `Reconnect` invocations:
the shared connection cell, which invocations have already exited their
loop, and which invocations completed a successful `Connect` while the
cell was already healthy (thereby replacing a healthy handle). -/
structure RunState where
  conn : ConnState
  doneThreads : List Nat
  healthyReplacements : List Nat
deriving Repr, DecidableEq

/-- One scheduled step of reconnect invocation `tid`: its next `Connect`
attempt completes with outcome `ok`.  A finished invocation does nothing
(its loop broke at its first success).  On success, `Connect` writes the
new handle and sets `connected = true` unconditionally — the source has no
guard comparing against the current health of the cell. -/
def reconnectStep (rs : RunState) (step : Nat × Bool) : RunState :=
  if step.1 ∈ rs.doneThreads then rs
  else if step.2 then
    { conn := { connected := true, handle := step.1 },
      doneThreads := step.1 :: rs.doneThreads,
      healthyReplacements :=
        if rs.conn.connected then step.1 :: rs.healthyReplacements
        else rs.healthyReplacements }
  else rs

/-- An interleaving of reconnect invocations, given as the list of
(invocation, attempt-outcome) steps in schedule order. -/
def runReconnects (init : ConnState) (sched : List (Nat × Bool)) : RunState :=
  sched.foldl reconnectStep ⟨init, [], []⟩

/-! ## Lemmas about the topology map construction -/

theorem mapLookup_cons (k v a : String) (m : List (String × String)) :
    mapLookup ((k, v) :: m) a = if k = a then some v else mapLookup m a := by
  by_cases h : k = a
  · simp only [mapLookup, if_pos h]
    rw [List.find?_cons_of_pos _ (by simp [h])]
    rfl
  · simp only [mapLookup, if_neg h]
    rw [List.find?_cons_of_neg _ (by simp [h])]

theorem mapLookup_assignFold (l : List String) (h : String) :
    ∀ (m : List (String × String)) (a : String),
      mapLookup (l.foldl (fun acc addr => mapAssign acc addr h) m) a =
        if a ∈ l then some h else mapLookup m a := by
  induction l with
  | nil => intro m a; simp
  | cons x xs ih =>
    intro m a
    simp only [List.foldl_cons]
    rw [ih]
    by_cases hax : a ∈ xs
    · simp [hax]
    · by_cases haxx : a = x
      · simp [hax, haxx, mapAssign, mapLookup_cons]
      · simp [hax, haxx, mapAssign, mapLookup_cons, Ne.symm haxx]

theorem mapLookup_addHost (m : List (String × String)) (hostname res a : String) :
    mapLookup (addHost m hostname res) a =
      if a ∈ splitComma res then some hostname else mapLookup m a := by
  simpa [addHost] using mapLookup_assignFold (splitComma res) hostname m a

theorem buildFromKeys_congr (e1 e2 : List (String × String)) (hf : List String) :
    ∀ (ks : List String) (m : List (String × String)),
      (∀ k ∈ ks, mapLookup e1 k = mapLookup e2 k) →
      buildFromKeys e1 hf ks m = buildFromKeys e2 hf ks m := by
  intro ks
  induction ks with
  | nil => intro m _; rfl
  | cons k ks ih =>
    intro m hk
    simp only [buildFromKeys]
    rw [hk k (by simp)]
    exact ih _ (fun k' hk' => hk k' (by simp [hk']))

theorem buildFromKeys_eq_foldEntries (hf : List String) :
    ∀ (e : List (String × String)) (m : List (String × String)),
      (e.map Prod.fst).Nodup →
      buildFromKeys e hf (e.map Prod.fst) m = foldEntries hf e m := by
  intro e
  induction e with
  | nil => intro m _; rfl
  | cons p rest ih =>
    intro m hnd
    have hnd' : (p.1 :: rest.map Prod.fst).Nodup := by simpa using hnd
    obtain ⟨hp, hrest⟩ := List.nodup_cons.mp hnd'
    simp only [List.map_cons, buildFromKeys, foldEntries]
    have hlook : mapLookup (p :: rest) p.1 = some p.2 := by
      cases p with
      | mk k v => simp [mapLookup_cons]
    rw [hlook]
    rw [buildFromKeys_congr (p :: rest) rest hf (rest.map Prod.fst) _
      (fun k hk => by
        cases p with
        | mk k0 v0 =>
          have hne : k0 ≠ k := by
            intro hkk
            exact hp (hkk ▸ hk)
          simp [mapLookup_cons, hne])]
    exact ih _ hrest

theorem mapLookup_foldEntries_of_not_mem (a : String) :
    ∀ (e : List (String × String)) (m : List (String × String)),
      (∀ p ∈ e, a ∉ splitComma p.2) →
      mapLookup (foldEntries [] e m) a = mapLookup m a := by
  intro e
  induction e with
  | nil => intro m _; rfl
  | cons p rest ih =>
    intro m hnot
    simp only [foldEntries, List.not_mem_nil, if_false]
    rw [ih _ (fun q hq => hnot q (by simp [hq]))]
    simp [mapLookup_addHost, hnot p (by simp)]

theorem mapLookup_foldEntries_of_unique (a name res : String) :
    ∀ (e : List (String × String)) (m : List (String × String)),
      (name, res) ∈ e →
      a ∈ splitComma res →
      (∀ p ∈ e, a ∈ splitComma p.2 → p = (name, res)) →
      mapLookup (foldEntries [] e m) a = some name := by
  intro e
  induction e with
  | nil => intro m h; simp at h
  | cons p rest ih =>
    intro m hmem ha huniq
    simp only [foldEntries, List.not_mem_nil, if_false]
    by_cases hex : ∃ q ∈ rest, a ∈ splitComma q.2
    · obtain ⟨q, hq, hqa⟩ := hex
      have hqe : q = (name, res) := huniq q (by simp [hq]) hqa
      subst hqe
      exact ih _ hq ha (fun p' hp' ha' => huniq p' (by simp [hp']) ha')
    · have hp : p = (name, res) := by
        rcases List.mem_cons.mp hmem with h | h
        · exact h.symm
        · exact absurd ⟨(name, res), h, ha⟩ hex
      subst hp
      rw [mapLookup_foldEntries_of_not_mem a rest _
        (fun q hq hqa => hex ⟨q, hq, hqa⟩)]
      simp [mapLookup_addHost, ha]

/-- C1: a topology Refresh over a registry state that binds each identity to
a comma-joined address list rebuilds the local map as the inversion
address→identity: when the identities are distinct and an address is listed
by exactly one identity, `GetNameByIP` afterwards returns that identity for
the address, and returns the empty string for any address no identity
lists. -/
theorem C1_refresh_builds_inverse_lookup (entries cur : List (String × String))
    (addr : String) (hnd : (entries.map Prod.fst).Nodup) :
    (∀ name res, (name, res) ∈ entries → addr ∈ splitComma res →
        (∀ p ∈ entries, addr ∈ splitComma p.2 → p = (name, res)) →
        GetNameByIP (UpdateLocalTopologyMap entries true [] cur) addr = name) ∧
    ((∀ p ∈ entries, addr ∉ splitComma p.2) →
        GetNameByIP (UpdateLocalTopologyMap entries true [] cur) addr = "") := by
  have hb : UpdateLocalTopologyMap entries true [] cur = foldEntries [] entries [] := by
    simp only [UpdateLocalTopologyMap]
    rw [if_neg (by simp)]
    exact buildFromKeys_eq_foldEntries [] entries [] hnd
  constructor
  · intro name res hmem ha huniq
    rw [hb]
    unfold GetNameByIP
    rw [mapLookup_foldEntries_of_unique addr name res entries [] hmem ha huniq]
  · intro hnone
    rw [hb]
    unfold GetNameByIP
    rw [mapLookup_foldEntries_of_not_mem addr entries [] hnone]
    rfl

/-- Witness for C1 at the spec's example: identities
`{A : "10.0.0.1,10.0.0.2", B : "10.0.0.3"}` give `GetNameByIP "10.0.0.2" = "A"`
and `GetNameByIP "10.0.0.9" = ""`. -/
theorem C1_refresh_builds_inverse_lookup_witness :
    GetNameByIP
        (UpdateLocalTopologyMap [("A", "10.0.0.1,10.0.0.2"), ("B", "10.0.0.3")]
          true [] []) "10.0.0.2" = "A" ∧
    GetNameByIP
        (UpdateLocalTopologyMap [("A", "10.0.0.1,10.0.0.2"), ("B", "10.0.0.3")]
          true [] []) "10.0.0.9" = "" := by
  refine ⟨?_, ?_⟩
  · exact (C1_refresh_builds_inverse_lookup
      [("A", "10.0.0.1,10.0.0.2"), ("B", "10.0.0.3")] [] "10.0.0.2"
      (by decide)).1 "A" "10.0.0.1,10.0.0.2" (by decide) (by decide) (by decide)
  · exact (C1_refresh_builds_inverse_lookup
      [("A", "10.0.0.1,10.0.0.2"), ("B", "10.0.0.3")] [] "10.0.0.9"
      (by decide)).2 (by decide)

/-- C10: when the identity-listing step (`KEYS *`) of a Refresh fails, the
refresh returns without touching the local topology map: the previously
built map stays in place unchanged. -/
theorem C10_failed_listing_keeps_previous_map (entries : List (String × String))
    (hgetFail : List String) (cur : List (String × String)) :
    UpdateLocalTopologyMap entries false hgetFail cur = cur := rfl

/-! ## Lemmas about the delivery worker -/

theorem workerRun_append (f : Bool) (dt : RedisDataType) (es1 : List WorkerEvent) :
    ∀ (st : WorkerState) (es2 : List WorkerEvent),
      workerRun f dt st (es1 ++ es2) =
        ((workerRun f dt (workerRun f dt st es1).1 es2).1,
         (workerRun f dt st es1).2 ++ (workerRun f dt (workerRun f dt st es1).1 es2).2) := by
  induction es1 with
  | nil => intro st es2; simp [workerRun]
  | cons e es ih =>
    intro st es2
    simp [workerRun, ih, List.append_assoc]

theorem workerRun_immediate_ok (dt : RedisDataType) (msgs : List RedisQueueMsg) :
    ∀ (st : WorkerState), st.connected = true →
      workerRun true dt st (okMsgEvents msgs) =
        (st, msgs.map (fun m => WorkerAction.doCmd (commandFor dt) m.index m.msg)) := by
  induction msgs with
  | nil => intro st _; rfl
  | cons m ms ih =>
    intro st h
    have hstep : workerStep true dt st (WorkerEvent.msg m true) =
        (st, [WorkerAction.doCmd (commandFor dt) m.index m.msg]) := by
      simp [workerStep, h]
    have hrest := ih st h
    simp only [okMsgEvents, List.map_cons, workerRun] at hrest ⊢
    rw [hstep, hrest]
    simp

theorem workerRun_batched_sends (dt : RedisDataType) (msgs : List RedisQueueMsg) :
    ∀ (p r : Nat),
      workerRun false dt ⟨true, p, r⟩ (okMsgEvents msgs) =
        (⟨true, p + msgs.length, r⟩,
         msgs.map (fun m => WorkerAction.sendCmd (commandFor dt) m.index m.msg)) := by
  induction msgs with
  | nil => intro p r; simp [okMsgEvents, workerRun]
  | cons m ms ih =>
    intro p r
    have hstep : workerStep false dt ⟨true, p, r⟩ (WorkerEvent.msg m true) =
        (⟨true, p + 1, r⟩, [WorkerAction.sendCmd (commandFor dt) m.index m.msg]) := by
      simp [workerStep]
    have hrest := ih (p + 1) r
    simp only [okMsgEvents, List.map_cons, workerRun] at hrest ⊢
    rw [hstep, hrest]
    have harith : p + 1 + ms.length = p + (ms.length + 1) := by omega
    simp [harith]

/-- C2 (amended): in batched mode the pending counter is incremented once
per pipelined send, a tick with a zero counter does nothing, and a tick
with a nonzero counter forces one flush covering all pending sends and
resets the counter to zero after EVERY flush attempt — also after a failed
one, in which case the connection is additionally marked unhealthy and a
reconnect is spawned. -/
theorem C2_pending_counter (st : WorkerState) (dt : RedisDataType)
    (m : RedisQueueMsg) (ok : Bool) (flushImm : Bool) :
    (st.connected = true →
      (workerStep false dt st (WorkerEvent.msg m ok)).1.pending = st.pending + 1) ∧
    (st.pending = 0 →
      workerStep flushImm dt st (WorkerEvent.tick ok) = (st, [])) ∧
    (0 < st.pending →
      (workerStep flushImm dt st (WorkerEvent.tick ok)).1.pending = 0 ∧
      (workerStep flushImm dt st (WorkerEvent.tick ok)).2 =
        [WorkerAction.flushRecv st.pending] ∧
      (workerStep flushImm dt st (WorkerEvent.tick ok)).1.connected =
        (if ok then st.connected else false) ∧
      (workerStep flushImm dt st (WorkerEvent.tick ok)).1.reconnectsSpawned =
        (if ok then st.reconnectsSpawned else st.reconnectsSpawned + 1)) := by
  refine ⟨?_, ?_, ?_⟩
  · intro h
    cases ok <;> simp [workerStep, h]
  · intro h
    simp [workerStep, h]
  · intro h
    cases ok <;> simp [workerStep, h, Nat.pos_iff_ne_zero.mp h]

/-- Counterexample to C2 as stated: the source resets the counter to zero
on a FAILED flush as well — the `pending = 0` line runs after the error
branch.  Concretely, from a connected state with one pending send, a tick
whose `Receive` fails leaves `pending = 0` although the flush failed (the
connection is marked unhealthy). -/
theorem C2_failed_flush_reset_counterexample :
    (workerStep false RedisDataType.RedisListType ⟨true, 1, 0⟩
        (WorkerEvent.tick false)).1.pending = 0 ∧
    (workerStep false RedisDataType.RedisListType ⟨true, 1, 0⟩
        (WorkerEvent.tick false)).1.connected = false := by
  decide

/-- Witness for C2 (amended) at concrete inputs. -/
theorem C2_pending_counter_witness :
    (workerStep false RedisDataType.RedisListType ⟨true, 0, 0⟩
        (WorkerEvent.msg ⟨"i", "m"⟩ true)).1.pending = 1 ∧
    workerStep false RedisDataType.RedisListType ⟨true, 0, 0⟩
        (WorkerEvent.tick true) = (⟨true, 0, 0⟩, []) ∧
    (workerStep false RedisDataType.RedisListType ⟨true, 2, 0⟩
        (WorkerEvent.tick false)).1.pending = 0 := by
  refine ⟨?_, ?_, ?_⟩
  · exact (C2_pending_counter ⟨true, 0, 0⟩ RedisDataType.RedisListType
      ⟨"i", "m"⟩ true false).1 rfl
  · exact (C2_pending_counter ⟨true, 0, 0⟩ RedisDataType.RedisListType
      ⟨"i", "m"⟩ true false).2.1 rfl
  · exact ((C2_pending_counter ⟨true, 2, 0⟩ RedisDataType.RedisListType
      ⟨"i", "m"⟩ false false).2.2 (by decide)).1

/-- C3: a negative configured flush interval turns on immediate flushing
(each dequeued message is one synchronous command with its reply awaited,
and no flush timer runs), while an unset interval defaults to 1000 ms and a
non-negative one is taken as given, with sends pipelined; a batch of N
messages followed by one tick yields exactly one aggregate flush covering
all N, after which the counter is zero. -/
theorem C3_flush_interval_modes :
    (∀ (cfg : Config) (te : Int) (out : RedisOutput), Init cfg te = Except.ok out →
      (cfg.FlushInterval = none →
        out.flush_immediatelly = false ∧ out.FlushInterval = 1000) ∧
      (∀ fi, cfg.FlushInterval = some fi →
        (fi < 0 → out.flush_immediatelly = true) ∧
        (0 ≤ fi → out.flush_immediatelly = false ∧ out.FlushInterval = fi))) ∧
    (∀ (dt : RedisDataType) (st : WorkerState) (msgs : List RedisQueueMsg),
      st.connected = true →
      workerRun true dt st (okMsgEvents msgs) =
        (st, msgs.map (fun m => WorkerAction.doCmd (commandFor dt) m.index m.msg))) ∧
    (∀ (dt : RedisDataType) (r : Nat) (msgs : List RedisQueueMsg), msgs ≠ [] →
      workerRun false dt ⟨true, 0, r⟩ (okMsgEvents msgs ++ [WorkerEvent.tick true]) =
        (⟨true, 0, r⟩,
         msgs.map (fun m => WorkerAction.sendCmd (commandFor dt) m.index m.msg) ++
           [WorkerAction.flushRecv msgs.length])) := by
  refine ⟨?_, fun dt st msgs h => workerRun_immediate_ok dt msgs st h, ?_⟩
  · intro cfg te out hok
    have hfields :
        out.FlushInterval = (match cfg.FlushInterval with
          | some fi => if fi < 0 then 1000 else fi
          | none => 1000) ∧
        out.flush_immediatelly = (match cfg.FlushInterval with
          | some fi => decide (fi < 0)
          | none => false) := by
      simp only [Init] at hok
      split_ifs at hok <;> (injection hok with h; subst h; exact ⟨rfl, rfl⟩)
    refine ⟨fun hnone => ?_, fun fi hsome => ⟨fun hneg => ?_, fun hpos => ?_⟩⟩
    · rw [hfields.1, hfields.2, hnone]
      exact ⟨rfl, rfl⟩
    · rw [hfields.2, hsome]
      simp [hneg]
    · have hnotneg : ¬ fi < 0 := by omega
      rw [hfields.1, hfields.2, hsome]
      simp [hnotneg]
  · intro dt r msgs hne
    rw [workerRun_append]
    rw [workerRun_batched_sends dt msgs 0 r]
    have hpos : 0 < msgs.length := List.length_pos.mpr hne
    have htick : workerStep false dt ⟨true, 0 + msgs.length, r⟩
        (WorkerEvent.tick true) =
        (⟨true, 0, r⟩, [WorkerAction.flushRecv msgs.length]) := by
      simp only [workerStep]
      rw [if_pos (by simpa using hpos)]
      simp
    simp only [workerRun]
    rw [htick]
    simp

/-- Witness for C3 at concrete inputs: default interval on an unset config,
immediate flag on interval `-1`, one synchronous command per message in
immediate mode, and one aggregate flush for five pipelined messages. -/
theorem C3_flush_interval_modes_witness :
    (∀ out, Init ⟨"h", 0, "", "", 0, 0, 0, 0, "list", none⟩ 0 = Except.ok out →
      out.flush_immediatelly = false ∧ out.FlushInterval = 1000) ∧
    (∀ out, Init ⟨"h", 0, "", "", 0, 0, 0, 0, "list", some (-1)⟩ 0 = Except.ok out →
      out.flush_immediatelly = true) ∧
    workerRun true RedisDataType.RedisListType ⟨true, 0, 0⟩
        (okMsgEvents [⟨"i", "a"⟩, ⟨"i", "b"⟩]) =
      (⟨true, 0, 0⟩, [WorkerAction.doCmd "RPUSH" "i" "a",
                      WorkerAction.doCmd "RPUSH" "i" "b"]) ∧
    workerRun false RedisDataType.RedisListType ⟨true, 0, 0⟩
        (okMsgEvents [⟨"i", "a"⟩, ⟨"i", "b"⟩, ⟨"i", "c"⟩, ⟨"i", "d"⟩, ⟨"i", "e"⟩] ++
          [WorkerEvent.tick true]) =
      (⟨true, 0, 0⟩, [WorkerAction.sendCmd "RPUSH" "i" "a",
                      WorkerAction.sendCmd "RPUSH" "i" "b",
                      WorkerAction.sendCmd "RPUSH" "i" "c",
                      WorkerAction.sendCmd "RPUSH" "i" "d",
                      WorkerAction.sendCmd "RPUSH" "i" "e",
                      WorkerAction.flushRecv 5]) := by
  refine ⟨?_, ?_, ?_, ?_⟩
  · intro out hok
    exact ((C3_flush_interval_modes.1 _ 0 out hok).1 rfl)
  · intro out hok
    exact ((C3_flush_interval_modes.1 _ 0 out hok).2 (-1) rfl).1 (by decide)
  · exact C3_flush_interval_modes.2.1 RedisDataType.RedisListType ⟨true, 0, 0⟩
      [⟨"i", "a"⟩, ⟨"i", "b"⟩] rfl
  · exact C3_flush_interval_modes.2.2 RedisDataType.RedisListType 0
      [⟨"i", "a"⟩, ⟨"i", "b"⟩, ⟨"i", "c"⟩, ⟨"i", "d"⟩, ⟨"i", "e"⟩] (by decide)

/-- C4: a message dequeued while the connection is unhealthy is discarded in
both modes: the state is unchanged and the only action is a drop — no send
command is issued and nothing is buffered. -/
theorem C4_unhealthy_discards (flushImm : Bool) (dt : RedisDataType)
    (st : WorkerState) (m : RedisQueueMsg) (ok : Bool)
    (h : st.connected = false) :
    workerStep flushImm dt st (WorkerEvent.msg m ok) = (st, [WorkerAction.drop m]) := by
  simp [workerStep, h]

/-- Witness for C4 in both modes at a concrete unhealthy state. -/
theorem C4_unhealthy_discards_witness :
    workerStep false RedisDataType.RedisListType ⟨false, 3, 1⟩
        (WorkerEvent.msg ⟨"i", "m"⟩ true) = (⟨false, 3, 1⟩, [WorkerAction.drop ⟨"i", "m"⟩]) ∧
    workerStep true RedisDataType.RedisChannelType ⟨false, 0, 0⟩
        (WorkerEvent.msg ⟨"i", "m"⟩ true) = (⟨false, 0, 0⟩, [WorkerAction.drop ⟨"i", "m"⟩]) := by
  exact ⟨C4_unhealthy_discards false RedisDataType.RedisListType ⟨false, 3, 1⟩
           ⟨"i", "m"⟩ true rfl,
         C4_unhealthy_discards true RedisDataType.RedisChannelType ⟨false, 0, 0⟩
           ⟨"i", "m"⟩ true rfl⟩

/-- C5: the reconnect loop performs connect attempts separated by one fixed
`ReconnectInterval` sleep after each failure, terminates exactly at the
first successful attempt (after `k` failures: `k + 1` attempts, `k` sleeps
of the fixed interval, later outcomes never consulted) and publishes
`connected = true`; as long as every attempt fails it never gives up
(no result over any all-failure outcome list). -/
theorem C5_reconnect_until_first_success (interval : Int) (rest : List Bool)
    (k : Nat) :
    Reconnect interval (List.replicate k false ++ true :: rest) =
      some (k + 1, List.replicate k interval, true) ∧
    Reconnect interval (List.replicate k false) = none := by
  induction k with
  | zero => simp [Reconnect]
  | succ n ih =>
    refine ⟨?_, ?_⟩
    · simp only [List.replicate_succ, List.cons_append, Reconnect, Bool.false_eq_true,
        if_false, List.append_eq]
      rw [ih.1]
      simp [List.replicate_succ]
    · simp only [List.replicate_succ, Reconnect, Bool.false_eq_true, if_false]
      rw [ih.2]
      rfl

/-- C6: `RedisConnect` performs, in order, the dial, `AUTH` if and only if a
password is configured, `PING`, and `SELECT db`; each failure aborts at once
with an error (no inline retry, no later step issued), and a handle is
returned exactly when every required step succeeds. -/
theorem C6_connect_handshake (password : String) (db : Int) (o : ConnOracle) :
    ((RedisConnect password db o).2 = Except.ok () ↔
      (o.dialOk = true ∧ (0 < password.length → o.authOk = true) ∧
       o.pingOk = true ∧ o.selectOk = true)) ∧
    (ConnStep.auth ∈ (RedisConnect password db o).1 ↔
      (0 < password.length ∧ o.dialOk = true)) ∧
    ((RedisConnect password db o).2 = Except.ok () →
      (RedisConnect password db o).1 =
        ConnStep.dial ::
          ((if 0 < password.length then [ConnStep.auth] else []) ++
           [ConnStep.ping, ConnStep.selectDb db])) ∧
    (o.dialOk = false →
      RedisConnect password db o = ([ConnStep.dial], Except.error "dial")) ∧
    (o.pingOk = false → ConnStep.selectDb db ∉ (RedisConnect password db o).1) ∧
    (0 < password.length → o.dialOk = true → o.authOk = false →
      RedisConnect password db o = ([ConnStep.dial, ConnStep.auth], Except.error "auth")) := by
  obtain ⟨d, a, p, s⟩ := o
  by_cases hp : 0 < password.length <;>
    cases d <;> cases a <;> cases p <;> cases s <;>
    simp [RedisConnect, hp]

/-- Witness for C6: with a password and every step succeeding, the trace is
dial, auth, ping, select in order; with a failing liveness check, `SELECT`
is never issued. -/
theorem C6_connect_handshake_witness :
    (RedisConnect "p" 3 ⟨true, true, true, true⟩).1 =
      ConnStep.dial :: ((if 0 < "p".length then [ConnStep.auth] else []) ++
        [ConnStep.ping, ConnStep.selectDb 3]) ∧
    ConnStep.selectDb 3 ∉ (RedisConnect "p" 3 ⟨true, true, false, true⟩).1 := by
  exact ⟨(C6_connect_handshake "p" 3 ⟨true, true, true, true⟩).2.2.1 rfl,
         (C6_connect_handshake "p" 3 ⟨true, true, false, true⟩).2.2.2.2.1 rfl⟩

/-- C7: `PublishIPs` opens its own short-lived connection and closes it
again, writes the identity with the comma-joined address list, sets the
record's expiration to the configured `TopologyExpire` regardless of the
prior store (so a later publish resets it to the full value again), then
refreshes the local map; an `HSET` or `EXPIRE` failure makes it return an
error.  `Init` defaults `TopologyExpire` to 15 when unconfigured. -/
theorem C7_publish_writes_record_and_expire (topologyExpire : Int) (name : String)
    (localAddrs : List String) (o : PublishOracle) (store : TopoStore)
    (cur : List (String × String)) :
    (o.connectOk = true → o.hsetOk = true → o.expireOk = true →
      (PublishIPs topologyExpire name localAddrs o store cur).result = Except.ok () ∧
      mapLookup (PublishIPs topologyExpire name localAddrs o store cur).store.entries
          name = some (joinComma localAddrs) ∧
      expLookup (PublishIPs topologyExpire name localAddrs o store cur).store.expires
          name = some topologyExpire ∧
      (PublishIPs topologyExpire name localAddrs o store cur).topologyMap =
        UpdateLocalTopologyMap
          (mapAssign store.entries name (joinComma localAddrs)) o.keysOk o.hgetFail cur ∧
      (PublishIPs topologyExpire name localAddrs o store cur).connOpened = true ∧
      (PublishIPs topologyExpire name localAddrs o store cur).connClosed = true) ∧
    (o.connectOk = true → (o.hsetOk = false ∨ o.expireOk = false) →
      ∃ e, (PublishIPs topologyExpire name localAddrs o store cur).result =
        Except.error e) ∧
    (∀ cfg out, Init cfg 0 = Except.ok out → out.TopologyExpire = 15) := by
  refine ⟨?_, ?_, ?_⟩
  · intro hc hh he
    simp [PublishIPs, hc, hh, he, mapLookup_cons, expLookup, expAssign, mapAssign]
  · intro hc hfail
    rcases hfail with hf | hf
    · simp [PublishIPs, hc, hf]
    · simp only [PublishIPs, hc, hf]
      by_cases hh : o.hsetOk = true <;> simp [hh]
  · intro cfg out hok
    simp only [Init] at hok
    split_ifs at hok <;> (injection hok with h; subst h) <;> simp_all

/-- Witness for C7: publishing twice in a row, the second publish finds the
expiration reset to the full 15 again. -/
theorem C7_publish_writes_record_and_expire_witness :
    expLookup (PublishIPs 15 "A" ["10.0.0.1", "10.0.0.2"] ⟨true, true, true, true, []⟩
      (PublishIPs 15 "A" ["10.0.0.1", "10.0.0.2"] ⟨true, true, true, true, []⟩
        ⟨[], []⟩ []).store []).store.expires "A" = some 15 := by
  exact ((C7_publish_writes_record_and_expire 15 "A" ["10.0.0.1", "10.0.0.2"]
    ⟨true, true, true, true, []⟩
    (PublishIPs 15 "A" ["10.0.0.1", "10.0.0.2"] ⟨true, true, true, true, []⟩
      ⟨[], []⟩ []).store []).1 rfl rfl rfl).2.2.1

/-- C8: `Init` fails exactly when the configured data type is invalid (not
one of unset/list/channel); in the typed configuration the flush interval
is an optional integer and cannot be malformed at this layer.  For every
other configuration `Init` succeeds and applies the documented defaults. -/
theorem C8_init_fails_iff_bad_data_type (config : Config) (topology_expire : Int) :
    ((∃ e, Init config topology_expire = Except.error e) ↔
      (config.DataType ≠ "" ∧ config.DataType ≠ "list" ∧ config.DataType ≠ "channel")) ∧
    (∀ out, Init config topology_expire = Except.ok out →
      (config.Index = "" → out.Index = "packetbeat") ∧
      (config.Timeout = 0 → out.Timeout = 5) ∧
      (config.ReconnectInterval = 0 → out.ReconnectInterval = 1) ∧
      (config.DbTopology = 0 → out.DbTopology = 1) ∧
      (topology_expire = 0 → out.TopologyExpire = 15) ∧
      (config.FlushInterval = none → out.FlushInterval = 1000)) := by
  constructor
  · simp only [Init]
    split_ifs with h1 h2
    · rcases h1 with h | h <;> simp [h]
    · simp [h2]
    · push_neg at h1
      simp [h1.1, h1.2, h2]
  · intro out hok
    simp only [Init] at hok
    split_ifs at hok <;> (injection hok with h; subst h) <;>
      refine ⟨fun h1 => ?_, fun h2 => ?_, fun h3 => ?_, fun h4 => ?_,
              fun h5 => ?_, fun h6 => ?_⟩ <;>
      simp_all

/-- Witness for C8: a bogus data type is rejected, `channel` is accepted. -/
theorem C8_init_fails_iff_bad_data_type_witness :
    (∃ e, Init ⟨"h", 0, "", "", 0, 0, 0, 0, "bogus", none⟩ 0 = Except.error e) ∧
    ¬ (∃ e, Init ⟨"h", 0, "", "", 0, 0, 0, 0, "channel", none⟩ 0 = Except.error e) := by
  constructor
  · exact (C8_init_fails_iff_bad_data_type ⟨"h", 0, "", "", 0, 0, 0, 0, "bogus", none⟩
      0).1.mpr (by decide)
  · intro hex
    have hbad := (C8_init_fails_iff_bad_data_type
      ⟨"h", 0, "", "", 0, 0, 0, 0, "channel", none⟩ 0).1.mp hex
    simp at hbad

/-- Counterexample to C9 as stated: the source's `Reconnect`/`Connect` pair
has no single-flight guard, so in the interleaving where invocation 1
succeeds first (healing the unhealthy cell) and invocation 2's attempt
completes afterwards, invocation 2 still replaces the now-healthy handle:
the final handle is 2 and the healthy-replacement log is nonempty,
contradicting `replaces only if it finished before a concurrent attempt
healed the state`. -/
theorem C9_healthy_handle_replaced_counterexample :
    (runReconnects ⟨false, 0⟩ [(1, true), (2, true)]).healthyReplacements = [2] ∧
    (runReconnects ⟨false, 0⟩ [(1, true), (2, true)]).conn = ⟨true, 2⟩ ∧
    ¬ (runReconnects ⟨false, 0⟩ [(1, true), (2, true)]).healthyReplacements = [] := by
  refine ⟨by decide, by decide, by decide⟩

/-- C9 (amended): a reconnect invocation that has not yet succeeded
publishes its handle and `connected = true` unconditionally on its first
successful attempt, even when the cell is already healthy (recording a
healthy replacement in that case); an invocation that already succeeded
takes no further steps, and a failed attempt changes nothing. -/
theorem C9_success_replaces_unconditionally (rs : RunState) (tid : Nat) (ok : Bool) :
    (tid ∉ rs.doneThreads →
      reconnectStep rs (tid, true) =
        ⟨⟨true, tid⟩, tid :: rs.doneThreads,
         if rs.conn.connected then tid :: rs.healthyReplacements
         else rs.healthyReplacements⟩) ∧
    (tid ∈ rs.doneThreads → reconnectStep rs (tid, ok) = rs) ∧
    (ok = false → reconnectStep rs (tid, ok) = rs) := by
  refine ⟨fun h => ?_, fun h => ?_, fun h => ?_⟩
  · simp [reconnectStep, h]
  · simp [reconnectStep, h]
  · subst h
    by_cases hd : tid ∈ rs.doneThreads <;> simp [reconnectStep, hd]

/-- Witness for C9 (amended): invocation 2 completing against an
already-healed cell still installs its own handle. -/
theorem C9_success_replaces_unconditionally_witness :
    reconnectStep ⟨⟨true, 1⟩, [1], []⟩ (2, true) = ⟨⟨true, 2⟩, [2, 1], [2]⟩ := by
  have h := (C9_success_replaces_unconditionally ⟨⟨true, 1⟩, [1], []⟩ 2 true).1
    (by decide)
  simpa using h

end Redis
